import Mathlib

/-!
Shallow embedding of the `msh_vec_math.h` single-header vector / matrix /
quaternion library.

The C scalar type `msh_scalar_t` (float or double, selected at build time) is
modelled by an arbitrary linear ordered field `K`; exact-arithmetic claims are
stated over `ℚ` (decidable, executable) and the transcendental functions over
`ℝ` (`sinf`/`cosf`/`sqrtf` via `Real.sin`, `Real.cos`, `Real.sqrt`; the
`sinf`/`acosf` pair inside `msh_quat_slerp` is kept as an explicit parameter of
the embedding, because slerp's endpoint behaviour depends on properties of the
C math library implementation — see the comment on `msh_quat_slerp`).

The C unions expose the same memory as named fields (`x,y,z,w`), a flat array
(`data[]`), and for quaternions an imaginary/real pair (`im`,`re`); matrices
are column-major flat arrays (`data[0..3]`, `data[0..8]`, `data[0..15]`).  We
model each union as a structure holding the flat storage as named components
`x,y,z,w` (vectors, quaternions) or `d0 .. d15` (matrices, `dK` standing for
`data[K]`), with the aliased views provided by accessor functions.
-/

structure msh_vec2 (K : Type) where
  x : K
  y : K
deriving DecidableEq

structure msh_vec3 (K : Type) where
  x : K
  y : K
  z : K
deriving DecidableEq

structure msh_vec4 (K : Type) where
  x : K
  y : K
  z : K
  w : K
deriving DecidableEq

/-- Quaternion: union of `x,y,z,w` with the pair `im` (the vector `x,y,z`)
and `re` (the scalar `w`). -/
structure msh_quat (K : Type) where
  x : K
  y : K
  z : K
  w : K
deriving DecidableEq

/-- The `im` view of the quaternion union: its imaginary 3-vector `(x,y,z)`. -/
def msh_quat.im {K : Type} (q : msh_quat K) : msh_vec3 K := ⟨q.x, q.y, q.z⟩

/-- The `re` view of the quaternion union: its real part `w`. -/
def msh_quat.re {K : Type} (q : msh_quat K) : K := q.w

/-- Rebuild a quaternion from the `im`/`re` views (writing through the union). -/
def msh_quat_of_im_re {K : Type} (im : msh_vec3 K) (re : K) : msh_quat K :=
  ⟨im.x, im.y, im.z, re⟩

structure msh_mat2 (K : Type) where
  d0 : K
  d1 : K
  d2 : K
  d3 : K
deriving DecidableEq

structure msh_mat3 (K : Type) where
  d0 : K
  d1 : K
  d2 : K
  d3 : K
  d4 : K
  d5 : K
  d6 : K
  d7 : K
  d8 : K
deriving DecidableEq

structure msh_mat4 (K : Type) where
  d0 : K
  d1 : K
  d2 : K
  d3 : K
  d4 : K
  d5 : K
  d6 : K
  d7 : K
  d8 : K
  d9 : K
  d10 : K
  d11 : K
  d12 : K
  d13 : K
  d14 : K
  d15 : K
deriving DecidableEq

variable {K : Type}

/-! ### Vector operations -/

/-- Source `msh_vec3_add`: `{{ a.x + b.x, a.y + b.y, a.z + b.z }}`. -/
def msh_vec3_add [Field K] (a b : msh_vec3 K) : msh_vec3 K :=
  ⟨a.x + b.x, a.y + b.y, a.z + b.z⟩

/-- Source `msh_vec2_scalar_add`: `{{ v.x + s, v.y + s }}`. -/
def msh_vec2_scalar_add [Field K] (v : msh_vec2 K) (s : K) : msh_vec2 K :=
  ⟨v.x + s, v.y + s⟩

/-- Source `msh_vec3_scalar_add`: `{{ v.x + s, v.y + s, v.z + s }}`. -/
def msh_vec3_scalar_add [Field K] (v : msh_vec3 K) (s : K) : msh_vec3 K :=
  ⟨v.x + s, v.y + s, v.z + s⟩

/-- Source `msh_vec4_scalar_add`: `{{ v.x + s, v.y + s, v.z + s, v.w + s }}`. -/
def msh_vec4_scalar_add [Field K] (v : msh_vec4 K) (s : K) : msh_vec4 K :=
  ⟨v.x + s, v.y + s, v.z + s, v.w + s⟩

/-- Source `msh_vec2_scalar_sub`: `{{ v.x - s, v.y - s }}`. -/
def msh_vec2_scalar_sub [Field K] (v : msh_vec2 K) (s : K) : msh_vec2 K :=
  ⟨v.x - s, v.y - s⟩

/-- Source `msh_vec3_scalar_sub`: `{{ v.x - s, v.y - s, v.z - s }}`. -/
def msh_vec3_scalar_sub [Field K] (v : msh_vec3 K) (s : K) : msh_vec3 K :=
  ⟨v.x - s, v.y - s, v.z - s⟩

/-- Source `msh_vec4_scalar_sub`: `{{ v.x - s, v.y - s, v.z - s, v.w - s }}`. -/
def msh_vec4_scalar_sub [Field K] (v : msh_vec4 K) (s : K) : msh_vec4 K :=
  ⟨v.x - s, v.y - s, v.z - s, v.w - s⟩

/-- Source `msh_vec3_scalar_mul`: `{{ v.x * s, v.y * s, v.z * s }}`. -/
def msh_vec3_scalar_mul [Field K] (v : msh_vec3 K) (s : K) : msh_vec3 K :=
  ⟨v.x * s, v.y * s, v.z * s⟩

/-- Source `msh_vec2_clamp`: `if ( min > max ){ return v; }` else clamp each
component with `fminf( fmaxf( c, min ), max )`. -/
def msh_vec2_clamp [LinearOrderedField K] (v : msh_vec2 K) (mn mx : K) : msh_vec2 K :=
  if mn > mx then v
  else ⟨min (max v.x mn) mx, min (max v.y mn) mx⟩

/-- Source `msh_vec3_clamp`: `if ( min > max ) { return v; }` else clamp each
component with `fminf( fmaxf( c, min ), max )`. -/
def msh_vec3_clamp [LinearOrderedField K] (v : msh_vec3 K) (mn mx : K) : msh_vec3 K :=
  if mn > mx then v
  else ⟨min (max v.x mn) mx, min (max v.y mn) mx, min (max v.z mn) mx⟩

/-- Source `msh_vec4_clamp`: `if ( min > max ){ return v; }` else clamp each
component with `fminf( fmaxf( c, min ), max )`. -/
def msh_vec4_clamp [LinearOrderedField K] (v : msh_vec4 K) (mn mx : K) : msh_vec4 K :=
  if mn > mx then v
  else ⟨min (max v.x mn) mx, min (max v.y mn) mx, min (max v.z mn) mx,
        min (max v.w mn) mx⟩

/-- Source `msh_vec2_dot`: `a.x * b.x + a.y * b.y`. -/
def msh_vec2_dot [Field K] (a b : msh_vec2 K) : K :=
  a.x * b.x + a.y * b.y

/-- Source `msh_vec3_dot`: `a.x * b.x + a.y * b.y + a.z * b.z`. -/
def msh_vec3_dot [Field K] (a b : msh_vec3 K) : K :=
  a.x * b.x + a.y * b.y + a.z * b.z

/-- Source `msh_vec4_dot`: `a.x * b.x + a.y * b.y + a.z * b.z + a.w * b.w`. -/
def msh_vec4_dot [Field K] (a b : msh_vec4 K) : K :=
  a.x * b.x + a.y * b.y + a.z * b.z + a.w * b.w

/-- Source `msh_vec2_inner_product` (source comment: alias for dot product):
`a.x * b.x + a.y * b.y`. -/
def msh_vec2_inner_product [Field K] (a b : msh_vec2 K) : K :=
  a.x * b.x + a.y * b.y

/-- Source `msh_vec3_inner_product`: `a.x * b.x + a.y * b.y + a.z * b.z`. -/
def msh_vec3_inner_product [Field K] (a b : msh_vec3 K) : K :=
  a.x * b.x + a.y * b.y + a.z * b.z

/-- Source `msh_vec4_inner_product`: `a.x * b.x + a.y * b.y + a.z * b.z + a.w * b.w`. -/
def msh_vec4_inner_product [Field K] (a b : msh_vec4 K) : K :=
  a.x * b.x + a.y * b.y + a.z * b.z + a.w * b.w

/-- Source `MSH_FLT_EPSILON` defaults to `FLT_EPSILON`, which is `2⁻²³`. -/
def MSH_FLT_EPSILON : ℚ := 1 / 2 ^ 23

/-- The int value of a C comparison: `1` when the proposition holds, else `0`. -/
def cmpInt (p : Prop) [Decidable p] : Int :=
  if p then 1 else 0

/-- The int value of the C `&&` of two ints: `1` when both are nonzero, else `0`. -/
def candInt (a b : Int) : Int :=
  if a ≠ 0 ∧ b ≠ 0 then 1 else 0

/-- Source `msh_vec2_equal`: `(fabs(a.x - b.x) <= MSH_FLT_EPSILON) &&
(fabs(a.y - b.y) <= MSH_FLT_EPSILON)`. -/
def msh_vec2_equal (a b : msh_vec2 ℚ) : Int :=
  candInt (cmpInt (|a.x - b.x| ≤ MSH_FLT_EPSILON)) (cmpInt (|a.y - b.y| ≤ MSH_FLT_EPSILON))

/-! ### Matrix operations (column-major, `dK` is `data[K]`) -/

/-- Source `msh_mat3_vec3_mul`: rows read across the column-major storage,
`o.x = m.data[0]*v.x + m.data[3]*v.y + m.data[6]*v.z` etc. -/
def msh_mat3_vec3_mul [Field K] (m : msh_mat3 K) (v : msh_vec3 K) : msh_vec3 K :=
  ⟨m.d0 * v.x + m.d3 * v.y + m.d6 * v.z,
   m.d1 * v.x + m.d4 * v.y + m.d7 * v.z,
   m.d2 * v.x + m.d5 * v.y + m.d8 * v.z⟩

/-- Source `msh_mat4_vec3_mul`: the `int32_t is_point` flag is cast to the scalar
type and multiplies the translation column,
`o.x = m.data[0]*v.x + m.data[4]*v.y + m.data[8]*v.z + (float)is_point * m.data[12]` etc. -/
def msh_mat4_vec3_mul [Field K] (m : msh_mat4 K) (v : msh_vec3 K) (is_point : ℤ) : msh_vec3 K :=
  ⟨m.d0 * v.x + m.d4 * v.y + m.d8 * v.z + (is_point : K) * m.d12,
   m.d1 * v.x + m.d5 * v.y + m.d9 * v.z + (is_point : K) * m.d13,
   m.d2 * v.x + m.d6 * v.y + m.d10 * v.z + (is_point : K) * m.d14⟩

/-- Source `msh_mat4_to_mat3`: keeps the upper-left 3x3 block,
`o.data[0..8] = m.data[0],m.data[1],m.data[2],m.data[4],m.data[5],m.data[6],m.data[8],m.data[9],m.data[10]`. -/
def msh_mat4_to_mat3 (m : msh_mat4 K) : msh_mat3 K :=
  ⟨m.d0, m.d1, m.d2, m.d4, m.d5, m.d6, m.d8, m.d9, m.d10⟩

/-- Source `msh_mat2_trace`: `m.data[0] + m.data[2]`. -/
def msh_mat2_trace [Field K] (m : msh_mat2 K) : K :=
  m.d0 + m.d2

/-- Source `msh_mat2_determinant`: `m.data[0] * m.data[3] - m.data[2] * m.data[1]`. -/
def msh_mat2_determinant [Field K] (m : msh_mat2 K) : K :=
  m.d0 * m.d3 - m.d2 * m.d1

/-- Source `msh_mat2_transpose`: `mt.data = m.data[0], m.data[2], m.data[1], m.data[3]`. -/
def msh_mat2_transpose (m : msh_mat2 K) : msh_mat2 K :=
  ⟨m.d0, m.d2, m.d1, m.d3⟩

/-- Source `msh_mat3_transpose`: `mt.data = m.data[0], m.data[3], m.data[6],
m.data[1], m.data[4], m.data[7], m.data[2], m.data[5], m.data[8]`. -/
def msh_mat3_transpose (m : msh_mat3 K) : msh_mat3 K :=
  ⟨m.d0, m.d3, m.d6, m.d1, m.d4, m.d7, m.d2, m.d5, m.d8⟩

/-- Source `msh_mat4_transpose`: `mt.data = m.data[0], m.data[4], m.data[8], m.data[12],
m.data[1], m.data[5], m.data[9], m.data[13], m.data[2], m.data[6], m.data[10],
m.data[14], m.data[3], m.data[7], m.data[11], m.data[15]`. -/
def msh_mat4_transpose (m : msh_mat4 K) : msh_mat4 K :=
  ⟨m.d0, m.d4, m.d8, m.d12,
   m.d1, m.d5, m.d9, m.d13,
   m.d2, m.d6, m.d10, m.d14,
   m.d3, m.d7, m.d11, m.d15⟩

/-- Source `msh_mat2_equal`: `result = 1` then `result = result && (a.data[k] == b.data[k])`
for `k = 0..3`. -/
def msh_mat2_equal [DecidableEq K] (a b : msh_mat2 K) : Int :=
  candInt (candInt (candInt (candInt 1
    (cmpInt (a.d0 = b.d0)))
    (cmpInt (a.d1 = b.d1)))
    (cmpInt (a.d2 = b.d2)))
    (cmpInt (a.d3 = b.d3))

/-- Source `msh_mat3_equal`: `result = 1` then `result = result && (a.data[k] == b.data[k])`
for `k = 0..8`. -/
def msh_mat3_equal [DecidableEq K] (a b : msh_mat3 K) : Int :=
  candInt (candInt (candInt (candInt (candInt (candInt (candInt (candInt (candInt 1
    (cmpInt (a.d0 = b.d0)))
    (cmpInt (a.d1 = b.d1)))
    (cmpInt (a.d2 = b.d2)))
    (cmpInt (a.d3 = b.d3)))
    (cmpInt (a.d4 = b.d4)))
    (cmpInt (a.d5 = b.d5)))
    (cmpInt (a.d6 = b.d6)))
    (cmpInt (a.d7 = b.d7)))
    (cmpInt (a.d8 = b.d8))

/-- Source `msh_mat4_equal`: `result = 1` then `result = result && (a.data[k] == b.data[k])`
for `k = 0..15`. -/
def msh_mat4_equal [DecidableEq K] (a b : msh_mat4 K) : Int :=
  candInt (candInt (candInt (candInt (candInt (candInt (candInt (candInt
  (candInt (candInt (candInt (candInt (candInt (candInt (candInt (candInt 1
    (cmpInt (a.d0 = b.d0)))
    (cmpInt (a.d1 = b.d1)))
    (cmpInt (a.d2 = b.d2)))
    (cmpInt (a.d3 = b.d3)))
    (cmpInt (a.d4 = b.d4)))
    (cmpInt (a.d5 = b.d5)))
    (cmpInt (a.d6 = b.d6)))
    (cmpInt (a.d7 = b.d7)))
    (cmpInt (a.d8 = b.d8)))
    (cmpInt (a.d9 = b.d9)))
    (cmpInt (a.d10 = b.d10)))
    (cmpInt (a.d11 = b.d11)))
    (cmpInt (a.d12 = b.d12)))
    (cmpInt (a.d13 = b.d13)))
    (cmpInt (a.d14 = b.d14)))
    (cmpInt (a.d15 = b.d15))

/-! ### Quaternion operations -/

/-- Source `msh_quat_add`: `{{ a.x + b.x, a.y + b.y, a.z + b.z, a.w + b.w }}`. -/
def msh_quat_add [Field K] (a b : msh_quat K) : msh_quat K :=
  ⟨a.x + b.x, a.y + b.y, a.z + b.z, a.w + b.w⟩

/-- Source `msh_quat_scalar_add`: `o = v; o.re += s;` — through the union `re`
aliases `w`, so only the real part changes. -/
def msh_quat_scalar_add [Field K] (v : msh_quat K) (s : K) : msh_quat K :=
  { v with w := v.w + s }

/-- Source `msh_quat_scalar_sub`: `o = v; o.re -= s;` — through the union `re`
aliases `w`, so only the real part changes. -/
def msh_quat_scalar_sub [Field K] (v : msh_quat K) (s : K) : msh_quat K :=
  { v with w := v.w - s }

/-- Source `msh_quat_scalar_mul`: `o.im = msh_vec3_scalar_mul(v.im, s); o.re = v.re * s;`. -/
def msh_quat_scalar_mul [Field K] (v : msh_quat K) (s : K) : msh_quat K :=
  msh_quat_of_im_re (msh_vec3_scalar_mul v.im s) (v.re * s)

/-- Source `msh_quat_scalar_div`: `denom = 1.0f / s` then each of the four components
is multiplied by `denom`. -/
def msh_quat_scalar_div [Field K] (v : msh_quat K) (s : K) : msh_quat K :=
  let denom := 1 / s
  ⟨v.x * denom, v.y * denom, v.z * denom, v.w * denom⟩

/-- Source `msh_quat_dot`: `a.x * b.x + a.y * b.y + a.z * b.z + a.w * b.w`. -/
def msh_quat_dot [Field K] (a b : msh_quat K) : K :=
  a.x * b.x + a.y * b.y + a.z * b.z + a.w * b.w

/-- Source `msh_quat_norm_sq`: `q.x * q.x + q.y * q.y + q.z * q.z + q.w * q.w`. -/
def msh_quat_norm_sq [Field K] (q : msh_quat K) : K :=
  q.x * q.x + q.y * q.y + q.z * q.z + q.w * q.w

/-- Source `msh_quat_norm`: `sqrt( q.x * q.x + q.y * q.y + q.z * q.z + q.w * q.w )`. -/
noncomputable def msh_quat_norm (q : msh_quat ℝ) : ℝ :=
  Real.sqrt (q.x * q.x + q.y * q.y + q.z * q.z + q.w * q.w)

/-- Source `msh_quat_conjugate`: `o.im = {{ -q.x, -q.y, -q.z }}; o.re = q.re;`. -/
def msh_quat_conjugate [Field K] (q : msh_quat K) : msh_quat K :=
  msh_quat_of_im_re ⟨-q.x, -q.y, -q.z⟩ q.re

/-- Source `msh_quat_inverse`: the local `o` is initialised to `{{0.0, 0.0, 0.0, 0.0}}`,
`denom = 1.0f / msh_quat_norm_sq(q)`, then `o.x = -q.x * denom; o.y = -q.y * denom;
o.z = -q.z * denom; o.w *= denom;` — note the last line multiplies the
zero-initialised `o.w`, it does not read `q.w`. -/
def msh_quat_inverse [Field K] (q : msh_quat K) : msh_quat K :=
  let o : msh_quat K := ⟨0, 0, 0, 0⟩
  let denom := 1 / msh_quat_norm_sq q
  ⟨-q.x * denom, -q.y * denom, -q.z * denom, o.w * denom⟩

/-- Source `msh_quat_lerp`: component-wise `q.c * (1.0f-t) + r.c * t`. -/
def msh_quat_lerp [Field K] (q r : msh_quat K) (t : K) : msh_quat K :=
  ⟨q.x * (1 - t) + r.x * t,
   q.y * (1 - t) + r.y * t,
   q.z * (1 - t) + r.z * t,
   q.w * (1 - t) + r.w * t⟩

/-- Source `msh_quat_slerp`: `a = acosf( msh_quat_dot(q, r) )`; when `fabs(a) > 1e-6`
it returns `q * (sin(a*(1.0-t))/sin(a)) + r * (sin(a*t)/sin(a))`, otherwise it
falls back to `msh_quat_lerp(q, r, t)`.  The trigonometric routines `sinf` and
`acosf` come from the C math library (`math.h`), which is external to this
repository, so they are parameters of the embedding (here named `sf` and `af`).
Instantiating them with the exact `Real.sin`/`Real.arccos` is unfaithful at
`dot = -1`: the C library has `sinf(acosf(-1.0f)) ≈ -8.7e-8 ≠ 0` because
`acosf(-1.0f)` is the float nearest π, not π itself, whereas the exact
idealisation makes `sin(arccos(-1)) = sin(π) = 0` and turns the endpoint
coefficient `sin(a*(1-t))/sin(a)` into a spurious `0/0` that the program never
computes. -/
noncomputable def msh_quat_slerp (sf af : ℝ → ℝ) (q r : msh_quat ℝ) (t : ℝ) : msh_quat ℝ :=
  let a := af (msh_quat_dot q r)
  if |a| > 1e-6 then
    msh_quat_add (msh_quat_scalar_mul q (sf (a * (1 - t)) / sf a))
                 (msh_quat_scalar_mul r (sf (a * t) / sf a))
  else
    msh_quat_lerp q r t

/-- Source `msh_quat_from_axis_angle`: `a = angle * 0.5; s = sin(a);` result
`{{ axis.x * s, axis.y * s, axis.z * s, cos(a) }}`. -/
noncomputable def msh_quat_from_axis_angle (axis : msh_vec3 ℝ) (angle : ℝ) : msh_quat ℝ :=
  let a := angle * 0.5
  let s := Real.sin a
  ⟨axis.x * s, axis.y * s, axis.z * s, Real.cos a⟩

/-! ### Claims -/

/-- C9: `msh_mat2_determinant` applied to the 2x2 matrix stored column-major
as data `{2, 0, 0, 3}` returns exactly 6. -/
theorem mat2_determinant_diag_2_3 :
    msh_mat2_determinant (⟨2, 0, 0, 3⟩ : msh_mat2 ℚ) = 6 := by
  norm_num [msh_mat2_determinant]

/-- C5: for every matrix A of size 2x2, 3x3, or 4x4, transposing twice gives
back A exactly, component for component. -/
theorem transpose_transpose_id (a : msh_mat2 ℚ) (b : msh_mat3 ℚ) (c : msh_mat4 ℚ) :
    msh_mat2_transpose (msh_mat2_transpose a) = a ∧
    msh_mat3_transpose (msh_mat3_transpose b) = b ∧
    msh_mat4_transpose (msh_mat4_transpose c) = c :=
  ⟨rfl, rfl, rfl⟩

/-- C7: for every pair of vectors of the same dimension (2, 3, or 4), `dot`
and `inner_product` return the same value — the two names are aliases. -/
theorem dot_eq_inner_product (a2 b2 : msh_vec2 ℚ) (a3 b3 : msh_vec3 ℚ) (a4 b4 : msh_vec4 ℚ) :
    msh_vec2_dot a2 b2 = msh_vec2_inner_product a2 b2 ∧
    msh_vec3_dot a3 b3 = msh_vec3_inner_product a3 b3 ∧
    msh_vec4_dot a4 b4 = msh_vec4_inner_product a4 b4 :=
  ⟨rfl, rfl, rfl⟩

/-- C10: `msh_quat_scalar_add` / `msh_quat_scalar_sub` modify only the real
(w) component, leaving the imaginary part unchanged, whereas the vector
`scalar_add` / `scalar_sub` broadcast the scalar to every component. -/
theorem quat_scalar_add_sub_only_real (q : msh_quat ℚ) (v2 : msh_vec2 ℚ)
    (v3 : msh_vec3 ℚ) (v4 : msh_vec4 ℚ) (s : ℚ) :
    msh_quat_scalar_add q s = ⟨q.x, q.y, q.z, q.w + s⟩ ∧
    msh_quat_scalar_sub q s = ⟨q.x, q.y, q.z, q.w - s⟩ ∧
    msh_vec2_scalar_add v2 s = ⟨v2.x + s, v2.y + s⟩ ∧
    msh_vec3_scalar_add v3 s = ⟨v3.x + s, v3.y + s, v3.z + s⟩ ∧
    msh_vec4_scalar_add v4 s = ⟨v4.x + s, v4.y + s, v4.z + s, v4.w + s⟩ ∧
    msh_vec2_scalar_sub v2 s = ⟨v2.x - s, v2.y - s⟩ ∧
    msh_vec3_scalar_sub v3 s = ⟨v3.x - s, v3.y - s, v3.z - s⟩ ∧
    msh_vec4_scalar_sub v4 s = ⟨v4.x - s, v4.y - s, v4.z - s, v4.w - s⟩ :=
  ⟨rfl, rfl, rfl, rfl, rfl, rfl, rfl, rfl⟩

/-- C4: for every vector of dimension 2, 3 or 4 and all scalars `mn`, `mx`
with `mn > mx`, `msh_vecN_clamp` returns the vector unchanged (a no-op, not
an error). -/
theorem clamp_noop_on_inverted_bounds (v2 : msh_vec2 ℚ) (v3 : msh_vec3 ℚ)
    (v4 : msh_vec4 ℚ) (mn mx : ℚ) (h : mn > mx) :
    msh_vec2_clamp v2 mn mx = v2 ∧
    msh_vec3_clamp v3 mn mx = v3 ∧
    msh_vec4_clamp v4 mn mx = v4 := by
  refine ⟨?_, ?_, ?_⟩ <;>
    simp [msh_vec2_clamp, msh_vec3_clamp, msh_vec4_clamp, if_pos h]

/-- C4 witness: the clamp no-op at the concrete inverted bounds `min = 1 > max = 0`. -/
theorem clamp_noop_on_inverted_bounds_witness :
    (1 : ℚ) > 0 ∧
    (msh_vec2_clamp (⟨5, -7⟩ : msh_vec2 ℚ) 1 0 = ⟨5, -7⟩ ∧
     msh_vec3_clamp (⟨5, -7, 9⟩ : msh_vec3 ℚ) 1 0 = ⟨5, -7, 9⟩ ∧
     msh_vec4_clamp (⟨5, -7, 9, 11⟩ : msh_vec4 ℚ) 1 0 = ⟨5, -7, 9, 11⟩) :=
  ⟨by norm_num,
   clamp_noop_on_inverted_bounds ⟨5, -7⟩ ⟨5, -7, 9⟩ ⟨5, -7, 9, 11⟩ 1 0 (by norm_num)⟩

/-- C2: `msh_mat4_vec3_mul m v is_point` returns the product of the
upper-left 3x3 block of `m` with `v` when `is_point` is 0 (direction), and
that product plus the translation column `m.data[12..14]` when `is_point`
is 1 (point). -/
theorem mat4_vec3_mul_direction_point (m : msh_mat4 ℚ) (v : msh_vec3 ℚ) :
    msh_mat4_vec3_mul m v 0 = msh_mat3_vec3_mul (msh_mat4_to_mat3 m) v ∧
    msh_mat4_vec3_mul m v 1 =
      msh_vec3_add (msh_mat3_vec3_mul (msh_mat4_to_mat3 m) v) ⟨m.d12, m.d13, m.d14⟩ := by
  constructor <;>
    · simp only [msh_mat4_vec3_mul, msh_mat3_vec3_mul, msh_mat4_to_mat3, msh_vec3_add,
        Int.cast_zero, Int.cast_one, msh_vec3.mk.injEq]
      refine ⟨by ring, by ring, by ring⟩

/-- C1: evaluation of `msh_quat_inverse` at the quaternion `(0,0,0,2)` (squared
norm 4, nonzero): the code returns scalar component `0`, while the conjugate
divided component-wise by the squared norm has scalar component `2 / 4 = 1/2` —
the `o.w *= denom;` line multiplies the zero-initialised local, never reading
`q.w`, so the scalar component of the result is always `0`. -/
theorem quat_inverse_drops_scalar_component :
    msh_quat_norm_sq (⟨0, 0, 0, 2⟩ : msh_quat ℚ) = 4 ∧
    msh_quat_inverse (⟨0, 0, 0, 2⟩ : msh_quat ℚ) = ⟨0, 0, 0, 0⟩ ∧
    msh_quat_scalar_div (msh_quat_conjugate (⟨0, 0, 0, 2⟩ : msh_quat ℚ))
        (msh_quat_norm_sq (⟨0, 0, 0, 2⟩ : msh_quat ℚ)) = ⟨0, 0, 0, 1/2⟩ ∧
    msh_quat_inverse (⟨0, 0, 0, 2⟩ : msh_quat ℚ) ≠
      msh_quat_scalar_div (msh_quat_conjugate (⟨0, 0, 0, 2⟩ : msh_quat ℚ))
        (msh_quat_norm_sq (⟨0, 0, 0, 2⟩ : msh_quat ℚ)) := by
  refine ⟨by norm_num [msh_quat_norm_sq], ?_, ?_, ?_⟩ <;>
    norm_num [msh_quat_inverse, msh_quat_scalar_div, msh_quat_conjugate,
      msh_quat_of_im_re, msh_quat_norm_sq, msh_quat.re, msh_quat.mk.injEq]

/-- Folding lemma for the C `&&` of two comparison results. -/
theorem candInt_cmpInt_cmpInt (p q : Prop) [Decidable p] [Decidable q] :
    candInt (cmpInt p) (cmpInt q) = cmpInt (p ∧ q) := by
  by_cases hp : p <;> by_cases hq : q <;> simp [candInt, cmpInt, hp, hq]

/-- Folding lemma for the initial `result = 1` accumulator. -/
theorem candInt_one_cmpInt (q : Prop) [Decidable q] :
    candInt 1 (cmpInt q) = cmpInt q := by
  by_cases hq : q <;> simp [candInt, cmpInt, hq]

/-- The map `cmpInt` respects propositional equivalence. -/
theorem cmpInt_congr {p q : Prop} [Decidable p] [Decidable q] (h : p ↔ q) :
    cmpInt p = cmpInt q := by
  by_cases hp : p
  · rw [cmpInt, if_pos hp, cmpInt, if_pos (h.mp hp)]
  · rw [cmpInt, if_neg hp, cmpInt, if_neg (fun hq => hp (h.mpr hq))]

/-- The `cmpInt` characterisation: value `1` means the proposition holds, value `0`
means it fails. -/
theorem cmpInt_eq_iff (p : Prop) [Decidable p] :
    (cmpInt p = 1 ↔ p) ∧ (cmpInt p = 0 ↔ ¬p) := by
  by_cases hp : p <;> simp [cmpInt, hp]

/-- The function `msh_mat2_equal` is the exact component-wise equality test. -/
theorem msh_mat2_equal_eq_cmp (a b : msh_mat2 ℚ) :
    msh_mat2_equal a b = cmpInt (a = b) := by
  cases a; cases b
  simp only [msh_mat2_equal, candInt_one_cmpInt, candInt_cmpInt_cmpInt]
  exact cmpInt_congr (by simp [msh_mat2.mk.injEq, and_assoc])

/-- The function `msh_mat3_equal` is the exact component-wise equality test. -/
theorem msh_mat3_equal_eq_cmp (a b : msh_mat3 ℚ) :
    msh_mat3_equal a b = cmpInt (a = b) := by
  cases a; cases b
  simp only [msh_mat3_equal, candInt_one_cmpInt, candInt_cmpInt_cmpInt]
  exact cmpInt_congr (by simp [msh_mat3.mk.injEq, and_assoc])

/-- The function `msh_mat4_equal` is the exact component-wise equality test. -/
theorem msh_mat4_equal_eq_cmp (a b : msh_mat4 ℚ) :
    msh_mat4_equal a b = cmpInt (a = b) := by
  cases a; cases b
  simp only [msh_mat4_equal, candInt_one_cmpInt, candInt_cmpInt_cmpInt]
  exact cmpInt_congr (by simp [msh_mat4.mk.injEq, and_assoc])

/-- C6: for matrices of each size, `msh_matN_equal` returns 1 exactly when the
two matrices agree in every component and 0 otherwise — exact equality — while
the vector `equal` accepts distinct vectors within the `MSH_FLT_EPSILON`
absolute tolerance (intentionally weaker). -/
theorem mat_equal_exact_vec_equal_tolerant (a2 b2 : msh_mat2 ℚ) (a3 b3 : msh_mat3 ℚ)
    (a4 b4 : msh_mat4 ℚ) :
    (msh_mat2_equal a2 b2 = 1 ↔ a2 = b2) ∧ (msh_mat2_equal a2 b2 = 0 ↔ a2 ≠ b2) ∧
    (msh_mat3_equal a3 b3 = 1 ↔ a3 = b3) ∧ (msh_mat3_equal a3 b3 = 0 ↔ a3 ≠ b3) ∧
    (msh_mat4_equal a4 b4 = 1 ↔ a4 = b4) ∧ (msh_mat4_equal a4 b4 = 0 ↔ a4 ≠ b4) ∧
    (∃ u v : msh_vec2 ℚ, u ≠ v ∧ msh_vec2_equal u v = 1) := by
  refine ⟨?_, ?_, ?_, ?_, ?_, ?_, ⟨0, 0⟩, ⟨MSH_FLT_EPSILON, 0⟩, ?_, ?_⟩
  · rw [msh_mat2_equal_eq_cmp]; exact (cmpInt_eq_iff _).1
  · rw [msh_mat2_equal_eq_cmp]; exact (cmpInt_eq_iff _).2
  · rw [msh_mat3_equal_eq_cmp]; exact (cmpInt_eq_iff _).1
  · rw [msh_mat3_equal_eq_cmp]; exact (cmpInt_eq_iff _).2
  · rw [msh_mat4_equal_eq_cmp]; exact (cmpInt_eq_iff _).1
  · rw [msh_mat4_equal_eq_cmp]; exact (cmpInt_eq_iff _).2
  · norm_num [msh_vec2.mk.injEq, MSH_FLT_EPSILON]
  · norm_num [msh_vec2_equal, MSH_FLT_EPSILON, cmpInt, candInt, abs_of_nonpos]

/-- C8: `msh_quat_from_axis_angle(axis, angle)` is the quaternion with
imaginary part `axis` scaled by `sin(angle/2)` and real part `cos(angle/2)`. -/
theorem quat_from_axis_angle_formula (axis : msh_vec3 ℝ) (angle : ℝ) :
    msh_quat_from_axis_angle axis angle =
      msh_quat_of_im_re (msh_vec3_scalar_mul axis (Real.sin (angle / 2)))
        (Real.cos (angle / 2)) := by
  have h : angle * 0.5 = angle / 2 := by ring
  simp only [msh_quat_from_axis_angle, msh_vec3_scalar_mul, msh_quat_of_im_re, h,
    msh_quat.mk.injEq]

/-- C3: for all unit quaternions q and r, `msh_quat_slerp(q, r, 0) = q` and
`msh_quat_slerp(q, r, 1) = r`.  The statement is proved for every
implementation `sf`/`af` of the external C math library's `sinf`/`acosf` such
that the sine implementation sends 0 to 0 and vanishes nowhere else — both
facts hold of the C library (`sinf` is exact at 0, and `sinf(x) ≠ 0` for every
nonzero finite float, in particular `sinf(acosf(-1.0f)) ≈ -8.7e-8`).  No
property of `af` is needed: whenever the `fabs(a) > 1e-6` branch is taken the
coefficients are `sf(a)/sf(a) = 1` and `sf(0)/sf(a) = 0` exactly, and the
`msh_quat_lerp` fallback reproduces the endpoints exactly as well. -/
theorem slerp_reproduces_endpoints (sf af : ℝ → ℝ) (hs0 : sf 0 = 0)
    (hs : ∀ x : ℝ, x ≠ 0 → sf x ≠ 0) (q r : msh_quat ℝ)
    (hq : msh_quat_norm q = 1) (hr : msh_quat_norm r = 1) :
    msh_quat_slerp sf af q r 0 = q ∧ msh_quat_slerp sf af q r 1 = r := by
  by_cases hc : |af (msh_quat_dot q r)| > 1e-6
  · have hane : af (msh_quat_dot q r) ≠ 0 := by
      intro h0
      rw [h0, abs_zero] at hc
      norm_num at hc
    have hsne : sf (af (msh_quat_dot q r)) ≠ 0 := hs _ hane
    have e0 : af (msh_quat_dot q r) * (1 - 0) = af (msh_quat_dot q r) := by ring
    have e1 : af (msh_quat_dot q r) * (1 - 1) = 0 := by ring
    constructor
    · simp only [msh_quat_slerp]
      rw [if_pos hc, e0, mul_zero, hs0, zero_div, div_self hsne]
      simp [msh_quat_add, msh_quat_scalar_mul, msh_quat_of_im_re, msh_vec3_scalar_mul,
        msh_quat.im, msh_quat.re]
    · simp only [msh_quat_slerp]
      rw [if_pos hc, e1, mul_one, hs0, zero_div, div_self hsne]
      simp [msh_quat_add, msh_quat_scalar_mul, msh_quat_of_im_re, msh_vec3_scalar_mul,
        msh_quat.im, msh_quat.re]
  · constructor
    · simp only [msh_quat_slerp]
      rw [if_neg hc]
      simp [msh_quat_lerp]
    · simp only [msh_quat_slerp]
      rw [if_neg hc]
      simp [msh_quat_lerp]

/-- C3 witness: the slerp endpoint property at the concrete unit quaternions
`(0,0,0,1)` and `(1,0,0,0)`, with the identity function as a concrete sine
implementation satisfying the two C-library facts (`id 0 = 0` and `id x ≠ 0`
for `x ≠ 0`) and also as the arccos implementation. -/
theorem slerp_reproduces_endpoints_witness :
    (fun x : ℝ => x) 0 = 0 ∧
    (∀ x : ℝ, x ≠ 0 → (fun x : ℝ => x) x ≠ 0) ∧
    msh_quat_norm (⟨0, 0, 0, 1⟩ : msh_quat ℝ) = 1 ∧
    msh_quat_norm (⟨1, 0, 0, 0⟩ : msh_quat ℝ) = 1 ∧
    (msh_quat_slerp (fun x : ℝ => x) (fun x : ℝ => x) ⟨0, 0, 0, 1⟩ ⟨1, 0, 0, 0⟩ 0
        = ⟨0, 0, 0, 1⟩ ∧
     msh_quat_slerp (fun x : ℝ => x) (fun x : ℝ => x) ⟨0, 0, 0, 1⟩ ⟨1, 0, 0, 0⟩ 1
        = ⟨1, 0, 0, 0⟩) := by
  have h1 : msh_quat_norm (⟨0, 0, 0, 1⟩ : msh_quat ℝ) = 1 := by
    rw [msh_quat_norm]; norm_num
  have h2 : msh_quat_norm (⟨1, 0, 0, 0⟩ : msh_quat ℝ) = 1 := by
    rw [msh_quat_norm]; norm_num
  exact ⟨rfl, fun x hx => hx, h1, h2,
    slerp_reproduces_endpoints (fun x : ℝ => x) (fun x : ℝ => x) rfl
      (fun x hx => hx) _ _ h1 h2⟩
